/-
  Verification development for the prusaslicer-be repository.

  The repository is a Bun/TypeScript microservice that accepts an uploaded
  3D model, slices it to G-code with an external PrusaSlicer binary,
  derives a price/time estimate from the G-code, persists a per-job
  metadata record, and serves artifacts back from the OS temp directory.

  This file shallowly embeds the relevant source functions:
  - `extOf` (src/unnamed/part_002 lines 6-9, part_000 lines 366-369),
  - `sliceWithPrusaSlicer` (src/unnamed/part_005 lines 262-282, part_000
    lines 397-417),
  - `getPriceAndTimeEstimate` (src/unnamed/part_003),
  - the GET "/" retrieval branch of `appFetch` in its current, id-based
    form (src/unnamed/part_000 lines 89-126) and its legacy path-based
    form (src/unnamed/part_000 lines 255-295),
  - the POST "/slice" branch of `appFetch` (src/unnamed/part_000 lines
    128-219).

  JavaScript strings are modelled as Lean `String` (code-point lists);
  node `path`/`fs` primitives are modelled explicitly, with the
  filesystem itself an oracle (`FS`) so that theorems quantify over
  every possible disk state, symlink layout included.
-/
import Mathlib

set_option maxHeartbeats 1000000

/-! ## JavaScript string primitives -/

/-- JS `String.prototype.startsWith(p)`: `p` is a code-point-wise initial
segment of `s`. -/
def jsStartsWith (s p : String) : Bool :=
  p.data.isPrefixOf s.data

/-- JS `String.prototype.toLowerCase()` restricted to ASCII case mapping. -/
def jsToLowerCase (s : String) : String :=
  ⟨s.data.map Char.toLower⟩

/-- Index of the last occurrence of character `c` in a character list,
`none` when absent.  Embeds JS `String.prototype.lastIndexOf(".")` (the
`-1` sentinel becomes `none`). -/
def lastIndexOfAux (c : Char) : List Char → Option Nat
  | [] => none
  | a :: as =>
    match lastIndexOfAux c as with
    | some j => some (j + 1)
    | none => if a = c then some 0 else none

/-- Embeds `extOf` (src/unnamed/part_002 lines 6-9):
`const i = name.lastIndexOf("."); return i >= 0 ? name.slice(i).toLowerCase() : "";`
Returns the lowercase file extension (including the dot) or the empty
string. -/
def extOf (name : String) : String :=
  match lastIndexOfAux '.' name.data with
  | some i => jsToLowerCase ⟨name.data.drop i⟩
  | none => ""

/-! ### Facts about `lastIndexOfAux` -/

theorem lastIndexOfAux_eq_none_iff (c : Char) (l : List Char) :
    lastIndexOfAux c l = none ↔ c ∉ l := by
  induction l with
  | nil => simp [lastIndexOfAux]
  | cons a as ih =>
    simp only [lastIndexOfAux]
    cases h : lastIndexOfAux c as with
    | some j =>
      have hmem : c ∈ as := by
        by_contra hc
        rw [ih.mpr hc] at h
        simp at h
      simp [List.mem_cons, hmem]
    | none =>
      have has : c ∉ as := ih.mp h
      by_cases hac : a = c
      · simp [hac]
      · have hca : ¬c = a := fun h' => hac h'.symm
        simp [hac, List.mem_cons, has, hca]

theorem lastIndexOfAux_some_decomp (c : Char) (l : List Char) (k : Nat)
    (h : lastIndexOfAux c l = some k) :
    ∃ pre suf, l = pre ++ c :: suf ∧ pre.length = k ∧ c ∉ suf := by
  induction l generalizing k with
  | nil => simp [lastIndexOfAux] at h
  | cons a as ih =>
    simp only [lastIndexOfAux] at h
    cases h' : lastIndexOfAux c as with
    | some j =>
      rw [h'] at h
      injection h with h
      obtain ⟨pre, suf, hdec, hlen, hnot⟩ := ih j h'
      exact ⟨a :: pre, suf, by simp [hdec], by rw [List.length_cons, hlen, h], hnot⟩
    | none =>
      rw [h'] at h
      by_cases hac : a = c
      · simp [hac] at h
        refine ⟨[], as, by simp [hac], by simp [← h], ?_⟩
        exact (lastIndexOfAux_eq_none_iff c as).mp h'
      · simp [hac] at h

/-- C3: for every file name, `extOf` returns the lowercase suffix of the
name starting at its final `.` (there is a decomposition
`name = pre ++ "." ++ suf` with no further dot in `suf`, and the result is
the lowercased `"." ++ suf`); when the name contains no `.` the result is
the empty string.  In particular `extOf "Model.STL" = ".stl"` and
`extOf "noext" = ""`. -/
theorem extOf_spec (name : String) :
    ('.' ∉ name.data → extOf name = "") ∧
    ('.' ∈ name.data → ∃ pre suf, name.data = pre ++ '.' :: suf ∧ '.' ∉ suf ∧
      extOf name = jsToLowerCase ⟨'.' :: suf⟩) ∧
    extOf "Model.STL" = ".stl" ∧ extOf "noext" = "" := by
  refine ⟨?_, ?_, by decide, by decide⟩
  · intro h
    have : lastIndexOfAux '.' name.data = none :=
      (lastIndexOfAux_eq_none_iff '.' name.data).mpr h
    simp [extOf, this]
  · intro h
    cases hk : lastIndexOfAux '.' name.data with
    | none => exact absurd ((lastIndexOfAux_eq_none_iff '.' name.data).mp hk) (by simp [h])
    | some k =>
      obtain ⟨pre, suf, hdec, hlen, hnot⟩ := lastIndexOfAux_some_decomp '.' name.data k hk
      refine ⟨pre, suf, hdec, hnot, ?_⟩
      have hdrop : name.data.drop k = '.' :: suf := by
        rw [hdec, ← hlen, List.drop_left]
      simp [extOf, hk, hdrop]

/-- Witness for `extOf_spec`: instantiated at the concrete name "noext",
whose character list provably contains no dot. -/
theorem extOf_spec_witness : extOf "noext" = "" :=
  (extOf_spec "noext").1 (by decide)

/-! ## Node `path` primitives

The handlers use node's `join`, `resolve`, `isAbsolute`, `relative` and
`extname`.  Paths are POSIX strings; we model the component splitting and
normalization those functions perform.  `relative(from, to)` internally
resolves both arguments, so our `jsRelative` normalizes both sides, as
node does. -/

/-- Split a character list on `'/'` into raw components. -/
def splitCharsAux (cur : List Char) (acc : List String) : List Char → List String
  | [] => (String.mk cur.reverse :: acc).reverse
  | c :: cs =>
    if c = '/' then splitCharsAux [] (String.mk cur.reverse :: acc) cs
    else splitCharsAux (c :: cur) acc cs

/-- Split a POSIX path string on `'/'` (like `s.split("/")` in JS). -/
def splitOnSlash (s : String) : List String :=
  splitCharsAux [] [] s.data

/-- Join components with `'/'` (like `parts.join("/")` in JS). -/
def joinSlash : List String → String
  | [] => ""
  | [a] => a
  | a :: b :: rest => a ++ "/" ++ joinSlash (b :: rest)

/-- Normalization stack for an absolute POSIX path: empty and `.`
components vanish, `..` pops one component (and vanishes at the root),
matching `path.normalize` on an absolute path.  The accumulator holds the
already-kept components most-recent first. -/
def normStack (stack : List String) : List String → List String
  | [] => stack.reverse
  | c :: cs =>
    if c = "" || c = "." then normStack stack cs
    else if c = ".." then normStack stack.tail cs
    else normStack (c :: stack) cs

/-- Canonical lexical components of an absolute POSIX path string. -/
def normComps (s : String) : List String :=
  normStack [] (splitOnSlash s)

/-- `path.normalize` for an absolute POSIX path, as a string. -/
def normalizeAbs (s : String) : String :=
  "/" ++ joinSlash (normComps s)

/-- Node `path.isAbsolute` on POSIX: the string starts with `'/'`. -/
def jsIsAbsolute (s : String) : Bool :=
  jsStartsWith s "/"

/-- Node `path.join(base, s)` where `base` is absolute: concatenate with a
separator and normalize. -/
def jsJoinAbs (base s : String) : String :=
  normalizeAbs (base ++ "/" ++ s)

/-- Node `path.resolve(base, p)` where `base` is absolute: an absolute `p`
is normalized on its own, a relative `p` is anchored under `base`. -/
def jsResolveAbs (base p : String) : String :=
  if jsIsAbsolute p then normalizeAbs p else normalizeAbs (base ++ "/" ++ p)

/-- Drop the longest common prefix of two component lists, returning the
two remainders (the core of `path.relative`). -/
def dropCommon : List String → List String → List String × List String
  | a :: as, b :: bs => if a = b then dropCommon as bs else (a :: as, b :: bs)
  | as, bs => (as, bs)

/-- Node `path.relative(from, to)` for POSIX: resolve both sides, drop the
common prefix, then one `".."` per remaining `from` component followed by
the remaining `to` components. -/
def jsRelative (f t : String) : String :=
  let pr := dropCommon (normComps f) (normComps t)
  joinSlash (List.replicate pr.1.length ".." ++ pr.2)

/-- Node `path.extname`: the suffix of the basename starting at its last
dot, or the empty string when the basename has no dot or only a leading
dot. -/
def jsExtname (p : String) : String :=
  let base := (splitOnSlash p).getLastD ""
  match lastIndexOfAux '.' base.data with
  | some i => if 0 < i then ⟨base.data.drop i⟩ else ""
  | none => ""

/-! ## Toolpath estimator (src/unnamed/part_003)

`getPriceAndTimeEstimate(gCodePath)` reads the G-code file, parses it with
the vendored `GCodeReader`/`analyzeModel` library (that library is not
part of this repository's sources), and derives the estimate.  The parse
result `analysis` is therefore an input here; the arithmetic from
`quickAnalysis` on (part_003 lines 11-42) is embedded exactly.  JS numbers
are modelled as rationals: every constant and every arithmetic step in
these formulas is exact in binary64, so no rounding behaviour is lost. -/

/-- Result shape of the external `analyzeModel` (vendored G-code analyzer,
not in this repository's sources).  Only `totalFilament` and `layerCnt`
feed the estimate; the remaining fields are carried opaquely (their inner
structure never matters), so they are abstracted to optional rationals. -/
structure ModelAnalysis where
  max : Option ℚ
  min : Option ℚ
  modelSize : Option ℚ
  totalFilament : Option ℚ
  filamentByExtruder : Option ℚ
  printTime : Option ℚ
  layerHeight : Option ℚ
  layerCnt : Option ℚ
deriving DecidableEq

/-- The null-safe field mapping of part_003 lines 11-22 (each field is
`analysis.f ?? null`, which on our `Option` model is the identity). -/
structure QuickAnalysis where
  max : Option ℚ
  min : Option ℚ
  modelSize : Option ℚ
  totalFilament : Option ℚ
  filamentByExtruder : Option ℚ
  printTime : Option ℚ
  layerHeight : Option ℚ
  layerCnt : Option ℚ
deriving DecidableEq

/-- Field-wise mapping `analysis` → `quickAnalysis` (part_003 lines 11-22). -/
def quickAnalysisOf (a : ModelAnalysis) : QuickAnalysis :=
  { max := a.max, min := a.min, modelSize := a.modelSize,
    totalFilament := a.totalFilament,
    filamentByExtruder := a.filamentByExtruder, printTime := a.printTime,
    layerHeight := a.layerHeight, layerCnt := a.layerCnt }

/-- JS `Math.round`: round half toward positive infinity. -/
def jsRound (q : ℚ) : ℤ := ⌊q + 1 / 2⌋

/-- A `currency.js` value at its default precision 2: the constructor
stores `intValue = round(v * 100)` and exposes `value = intValue / 100`. -/
structure Currency where
  intValue : ℤ
  value : ℚ
deriving DecidableEq

/-- The `Currency(v)` constructor (currency.js, default options). -/
def currencyOf (v : ℚ) : Currency :=
  { intValue := jsRound (v * 100), value := (jsRound (v * 100) : ℚ) / 100 }

/-- Shape of `prettyCurrencyObject` (src/unnamed/part_002 lines 30-37).
The `formatted` field (a locale-formatted display string built by
`_formatCurrency`) is presentation-only and never inspected by any claim,
so it is omitted from the model. -/
structure CurrencyPretty where
  intValue : ℤ
  value : ℚ
  currency : String
deriving DecidableEq

/-- Embeds `prettyCurrencyObject` (src/unnamed/part_002 lines 30-37),
minus the presentation-only `formatted` string. -/
def prettyCurrencyObject (c : Currency) (cur : String) : CurrencyPretty :=
  { intValue := c.intValue, value := c.value, currency := cur }

/-- The four estimator constants (part_003 lines 25-33). -/
def BASE_PRICE : ℚ := 1
def PRICE_PER_FILAMENT_UNIT : ℚ := 1 / 100
def BASE_TIME : ℚ := 1
def TIME_PER_LAYER : ℚ := 1 / 100

/-- `finalPrice` (part_003 lines 27-29):
`Number(quickAnalysis?.totalFilament ?? 0) * PRICE_PER_FILAMENT_UNIT`,
then `quickAnalysis ? BASE_PRICE + variablePrice : 0`. -/
def finalPrice (quickAnalysis : Option QuickAnalysis) : ℚ :=
  let filamentAmount : ℚ := (quickAnalysis.bind QuickAnalysis.totalFilament).getD 0
  let variablePrice := filamentAmount * PRICE_PER_FILAMENT_UNIT
  match quickAnalysis with
  | some _ => BASE_PRICE + variablePrice
  | none => 0

/-- `finalTime` (part_003 lines 34-36). -/
def finalTime (quickAnalysis : Option QuickAnalysis) : ℚ :=
  let layerAmount : ℚ := (quickAnalysis.bind QuickAnalysis.layerCnt).getD 0
  let variableTime := layerAmount * TIME_PER_LAYER
  match quickAnalysis with
  | some _ => BASE_TIME + variableTime
  | none => 0

/-- Return shape of `getPriceAndTimeEstimate` (part_003 lines 38-42). -/
structure Estimates where
  priceEstimate : CurrencyPretty
  timeEstimate : ℚ
  quickAnalysis : Option QuickAnalysis
deriving DecidableEq

/-- Embeds `getPriceAndTimeEstimate` (src/unnamed/part_003) from the
`analyzeModel` result on: the file read and G-code parse that produce
`analysis` happen before this point and are handled by the caller's
oracle (a throwing read never reaches this computation). -/
def getPriceAndTimeEstimate (analysis : Option ModelAnalysis) : Estimates :=
  let quickAnalysis := analysis.map quickAnalysisOf
  { priceEstimate := prettyCurrencyObject (currencyOf (finalPrice quickAnalysis)) "EUR",
    timeEstimate := finalTime quickAnalysis,
    quickAnalysis := quickAnalysis }

/-! ## Slicing engine adapter (src/unnamed/part_005 lines 262-282)

`sliceWithPrusaSlicer` spawns the engine and observes exit code, stderr
and stdout; those three observations are its input here.  A non-zero exit
throws `Error("PrusaSlicer failed (code " + code + "): " + stderr)`; exit
zero returns the captured stdout. -/

/-- Observations of one engine subprocess run: exit code, captured stderr
and captured stdout. -/
structure SpawnResult where
  code : Int
  stderr : String
  stdout : String
deriving DecidableEq

/-- Embeds `sliceWithPrusaSlicer` (src/unnamed/part_005 lines 262-282):
the outcome mapping from the spawned process's exit code, with the thrown
error's message on the non-zero branch. -/
def sliceWithPrusaSlicer (r : SpawnResult) : Except String String :=
  if r.code ≠ 0 then
    .error ("PrusaSlicer failed (code " ++ toString r.code ++ "): " ++ r.stderr)
  else
    .ok r.stdout

/-! ## HTTP handler embeddings (src/unnamed/part_000)

The filesystem is an oracle: `statF p` is `none` when `stat(p)` throws and
`some b` when it succeeds with `isFile() = b`; `realpathF p` is `none`
when `realpath(p)` throws and `some r` when it canonicalizes `p` to `r`;
`readF p` is the content `readFile(p)` would return.  Handlers return the
response together with a trace of the side effects they performed, so
"no read happened" and "no write happened" are provable statements. -/

/-- Filesystem oracle for the retrieval handlers. -/
structure FS where
  statF : String → Option Bool
  realpathF : String → Option String
  readF : String → String

/-- A response body: plain text, or the JSON-serialized client response
object of the submission endpoint (kept structured rather than
re-implementing `JSON.stringify`). -/
inductive Body where
  | text (s : String)
  | json (uploadId : String) (previewUrl : Option String)
      (priceEstimate : Option CurrencyPretty) (timeEstimate : Option ℚ)
deriving DecidableEq

/-- An HTTP response: status code and body. -/
structure HResponse where
  status : Nat
  body : Body
deriving DecidableEq

/-- The side effects a handler can perform, in order: writing a file,
spawning the slicer subprocess, reading a file. -/
inductive Effect where
  | write (p : String)
  | spawn
  | read (p : String)
deriving DecidableEq

/-- The metadata side-car path `join(tmpdir(), uploadId + ".json")` used
by both the submission and the retrieval handler. -/
def uploadMetaPathOf (tmpDir uploadId : String) : String :=
  jsJoinAbs tmpDir (uploadId ++ ".json")

/-- Embeds the GET "/" branch of the current `appFetch`
(src/unnamed/part_000 lines 89-126): resolve `join(tmpdir(), id + ".json")`,
stat it, canonicalize it, check containment of the canonical path under
the canonical temp root via `relative(baseTmp, real)`, and only then read.
`uploadId?` is `u.searchParams.get("id")` (`none` when absent).  The
returned list records every `readFile` call.  An exception from
`realpath(tmpdir())` itself is uncaught in the source and surfaces as a
generic server error without reading anything. -/
def appFetchGet (fs : FS) (tmpDir : String) (uploadId? : Option String) :
    HResponse × List String :=
  match uploadId? with
  | none => (⟨400, .text "missing id param"⟩, [])
  | some uploadId =>
    let uploadMetaPath := uploadMetaPathOf tmpDir uploadId
    match fs.realpathF tmpDir with
    | none => (⟨500, .text "internal server error"⟩, [])
    | some baseTmp =>
      let candidate :=
        if jsIsAbsolute uploadMetaPath then uploadMetaPath
        else jsResolveAbs baseTmp uploadMetaPath
      match fs.statF candidate with
      | none => (⟨404, .text "not found"⟩, [])
      | some isFile =>
        if !isFile then (⟨404, .text "not found"⟩, [])
        else
          match fs.realpathF candidate with
          | none => (⟨404, .text "not found"⟩, [])
          | some real =>
            let rel := jsRelative baseTmp real
            if jsStartsWith rel ".." || jsIsAbsolute rel then
              (⟨404, .text "not found"⟩, [])
            else
              (⟨200, .text (fs.readF real)⟩, [real])

/-- The candidate path of the legacy GET handler: an absolute `?path` is
used as given, a relative one is resolved under the canonical temp root. -/
def legacyCandidate (baseTmp fp : String) : String :=
  if jsIsAbsolute fp then fp else jsResolveAbs baseTmp fp

/-- Embeds the GET "/" branch of the legacy `appFetch`
(src/unnamed/part_000 lines 255-295): same canonicalize-then-contain
algorithm, but keyed by a raw `?path` parameter, guarded by a `.gcode`
extension check, and with cause-specific failure responses
(400 "invalid extension", 400 "not a file", 404 "not found",
403 "forbidden path"). -/
def appFetchGetLegacy (fs : FS) (tmpDir : String) (fp? : Option String) :
    HResponse × List String :=
  match fp? with
  | none => (⟨400, .text "missing ?path"⟩, [])
  | some fp =>
    if jsToLowerCase (jsExtname fp) ≠ ".gcode" then
      (⟨400, .text "invalid extension"⟩, [])
    else
      match fs.realpathF tmpDir with
      | none => (⟨500, .text "internal server error"⟩, [])
      | some baseTmp =>
        let candidate := legacyCandidate baseTmp fp
        match fs.statF candidate with
        | none => (⟨404, .text "not found"⟩, [])
        | some isFile =>
          if !isFile then (⟨400, .text "not a file"⟩, [])
          else
            match fs.realpathF candidate with
            | none => (⟨404, .text "not found"⟩, [])
            | some real =>
              let rel := jsRelative baseTmp real
              if jsStartsWith rel ".." || jsIsAbsolute rel then
                (⟨403, .text "forbidden path"⟩, [])
              else
                (⟨200, .text (fs.readF real)⟩, [real])

/-! ## POST /slice submission pipeline (src/unnamed/part_000 lines 128-219) -/

/-- The multipart "file" field: declared filename and byte size. -/
structure UploadFile where
  name : String
  size : Nat
deriving DecidableEq

/-- Outcomes of the effectful steps of one submission, observed in
pipeline order.  `Except.error msg` models a thrown exception whose
`err?.message` is `msg`.
- `writeInput`: `Bun.write(inPath, file)` (`ok` carries its boolean result),
- `inputExists`: the `Bun.file(inPath).exists()` check after the write,
- `slice`: the `sliceWithPrusaSlicer(inPath, outPath)` call (`ok` = stdout),
- `estimate`: the `getPriceAndTimeEstimate(outPath)` call up to and
  including the G-code parse — `ok analysis` is a successful read whose
  parse produced `analysis`, `error msg` is a thrown read error,
- `writeMeta`: `Bun.write(uploadMetaPath, JSON.stringify(meta))`,
- `inputExistsAfterMeta`: the second `Bun.file(inPath).exists()` check
  (the source rechecks `inPath`, not the metadata path, after the meta
  write). -/
structure SliceEffects where
  writeInput : Except String Bool
  inputExists : Bool
  slice : Except String String
  estimate : Except String (Option ModelAnalysis)
  writeMeta : Except String Bool
  inputExistsAfterMeta : Bool

/-- The upload-size limit (part_000 line 140): 100 MiB. -/
def SIZE_LIMIT : Nat := 100 * 1024 * 1024

/-- The extension allow-list of the current server (part_000 line 69). -/
def ALLOWED_EXT : List String :=
  [".stl", ".3mf", ".amf", ".obj", ".step", ".stp", ".ste"]

/-- Embeds the POST "/slice" branch of the current `appFetch`
(src/unnamed/part_000 lines 128-219).  `ct` is the request content type
(`""` when the header is absent), `file?` the multipart "file" field,
`base` the `randomBase("job")` value and `uploadId` the
`crypto.randomUUID()` value (both random components are inputs, the
handler only requires them to be fresh).  Returns the response and the
ordered trace of filesystem/subprocess effects.  The metadata object
itself (name, ext, size, paths, stdout, estimates) is written as one
JSON blob to `uploadMetaPath`; the trace records that write. -/
def appFetchSlice (eff : SliceEffects) (tmpDir ct : String)
    (file? : Option UploadFile) (base uploadId : String) :
    HResponse × List Effect :=
  if ¬ jsStartsWith ct "multipart/form-data" then
    (⟨415, .text "use multipart/form-data"⟩, [])
  else
    match file? with
    | none => (⟨400, .text "no file"⟩, [])
    | some file =>
      let name := if file.name = "" then "model" else file.name
      let ext := extOf name
      if file.size > SIZE_LIMIT then (⟨413, .text "request too big"⟩, [])
      else if ¬ ALLOWED_EXT.contains ext then
        (⟨400, .text ("unsupported extension: " ++ ext)⟩, [])
      else
        let uploadMetaPath := uploadMetaPathOf tmpDir uploadId
        let inPath := jsJoinAbs tmpDir (base ++ ext)
        let outPath := jsJoinAbs tmpDir (base ++ ".gcode")
        match eff.writeInput with
        | .error msg =>
          (⟨500, .text ("error writing input file: " ++ msg)⟩, [.write inPath])
        | .ok ok =>
          if ¬ ok then (⟨400, .text "failed to write input file"⟩, [.write inPath])
          else if ¬ eff.inputExists then
            (⟨500, .text "input file does not exist after writing"⟩, [.write inPath])
          else
            match eff.slice with
            | .error msg =>
              (⟨500, .text ("slicing error: " ++ msg)⟩, [.write inPath, .spawn])
            | .ok _stdout =>
              match eff.estimate with
              | .error msg =>
                (⟨500, .text ("error getting price estimate: " ++ msg)⟩,
                  [.write inPath, .spawn, .read outPath])
              | .ok analysis =>
                let estimates := getPriceAndTimeEstimate analysis
                match eff.writeMeta with
                | .error msg =>
                  (⟨500, .text ("error writing database entry: " ++ msg)⟩,
                    [.write inPath, .spawn, .read outPath, .write uploadMetaPath])
                | .ok ok2 =>
                  if ¬ ok2 then
                    (⟨400, .text "failed to write to database"⟩,
                      [.write inPath, .spawn, .read outPath, .write uploadMetaPath])
                  else if ¬ eff.inputExistsAfterMeta then
                    (⟨500, .text "database entry does not exist after writing"⟩,
                      [.write inPath, .spawn, .read outPath, .write uploadMetaPath])
                  else
                    (⟨200, .json uploadId none (some estimates.priceEstimate)
                        (some estimates.timeEstimate)⟩,
                      [.write inPath, .spawn, .read outPath, .write uploadMetaPath])

/-! ## Containment-check lemmas -/

theorem dropCommon_fst_nil {f t : List String} (h : (dropCommon f t).1 = []) :
    f.isPrefixOf t = true := by
  induction f generalizing t with
  | nil => simp [List.isPrefixOf]
  | cons a as ih =>
    cases t with
    | nil => simp [dropCommon] at h
    | cons b bs =>
      by_cases hab : a = b
      · simp only [dropCommon, if_pos hab] at h
        simpa [List.isPrefixOf, hab] using ih h
      · simp [dropCommon, hab] at h

theorem jsStartsWith_joinSlash_dotdot (rest : List String) :
    jsStartsWith (joinSlash (".." :: rest)) ".." = true := by
  cases rest with
  | nil => decide
  | cons b bs =>
    show (".." : String).data.isPrefixOf ((".." ++ "/" ++ joinSlash (b :: bs)).data) = true
    rw [String.data_append, String.data_append]
    have h1 : (".." : String).data = ['.', '.'] := rfl
    have h2 : ("/" : String).data = ['/'] := rfl
    rw [h1, h2]
    simp [List.isPrefixOf]

/-- If the canonical temp root's components are not a prefix of the
canonical target's components, the `relative(baseTmp, real)` string
computed by the handlers starts with `".."`, so the containment check
fires. -/
theorem jsRelative_startsWith_dotdot_of_not_contained {baseTmp real : String}
    (h : (normComps baseTmp).isPrefixOf (normComps real) = false) :
    jsStartsWith (jsRelative baseTmp real) ".." = true := by
  unfold jsRelative
  cases hd : (dropCommon (normComps baseTmp) (normComps real)).1 with
  | nil => rw [dropCommon_fst_nil hd] at h; cases h
  | cons a as =>
    have : List.replicate (a :: as).length ".." = ".." :: List.replicate as.length ".." := by
      simp [List.replicate]
    simp only [hd, this, List.cons_append]
    exact jsStartsWith_joinSlash_dotdot _

theorem jsIsAbsolute_normalizeAbs (s : String) :
    jsIsAbsolute (normalizeAbs s) = true := by
  show ("/" : String).data.isPrefixOf (("/" ++ joinSlash (normComps s)).data) = true
  rw [String.data_append]
  have h1 : ("/" : String).data = ['/'] := rfl
  rw [h1]
  simp [List.isPrefixOf]

/-- The requested path escapes the scratch root, judged on oracle outputs:
its canonical (symlink-resolved) form is not below the canonical root —
or it has no canonical form at all because resolution fails. -/
def escapesRoot (fs : FS) (baseTmp p : String) : Bool :=
  match fs.realpathF p with
  | none => true
  | some real => !((normComps baseTmp).isPrefixOf (normComps real))

/-- C1: for every client-supplied identifier or path whose canonical
(symlink-resolved) resolution escapes the scratch root, neither retrieval
handler ever returns the escaped file's contents: the containment check
runs on the canonicalized path, an escaping path yields a non-200
outcome, and no `readFile` call is performed at all.  Stated for both the
current id-based handler (part_000 lines 95-117) and the legacy
path-based handler (part_000 lines 264-286). -/
theorem escape_yields_non200 (fs : FS) (tmpDir baseTmp uploadId fp : String)
    (hroot : fs.realpathF tmpDir = some baseTmp)
    (hesc1 : escapesRoot fs baseTmp (uploadMetaPathOf tmpDir uploadId) = true)
    (hesc2 : escapesRoot fs baseTmp (legacyCandidate baseTmp fp) = true) :
    ((appFetchGet fs tmpDir (some uploadId)).1.status ≠ 200 ∧
      (appFetchGet fs tmpDir (some uploadId)).2 = []) ∧
    ((appFetchGetLegacy fs tmpDir (some fp)).1.status ≠ 200 ∧
      (appFetchGetLegacy fs tmpDir (some fp)).2 = []) := by
  constructor
  · have habs : jsIsAbsolute (uploadMetaPathOf tmpDir uploadId) = true :=
      jsIsAbsolute_normalizeAbs _
    simp only [appFetchGet, hroot, habs, if_true]
    cases hstat : fs.statF (uploadMetaPathOf tmpDir uploadId) with
    | none => simp [hstat]
    | some isf =>
      cases isf with
      | false => simp [hstat]
      | true =>
        cases hreal : fs.realpathF (uploadMetaPathOf tmpDir uploadId) with
        | none => simp [hstat, hreal]
        | some real =>
          have hpre : (normComps baseTmp).isPrefixOf (normComps real) = false := by
            unfold escapesRoot at hesc1
            rw [hreal] at hesc1
            simpa using hesc1
          have hdd := jsRelative_startsWith_dotdot_of_not_contained hpre
          simp [hstat, hreal, hdd]
  · by_cases hext : jsToLowerCase (jsExtname fp) = ".gcode"
    · simp only [appFetchGetLegacy, hroot]
      rw [if_neg (by simp [hext])]
      cases hstat : fs.statF (legacyCandidate baseTmp fp) with
      | none => simp [hstat]
      | some isf =>
        cases isf with
        | false => simp [hstat]
        | true =>
          cases hreal : fs.realpathF (legacyCandidate baseTmp fp) with
          | none => simp [hstat, hreal]
          | some real =>
            have hpre : (normComps baseTmp).isPrefixOf (normComps real) = false := by
              unfold escapesRoot at hesc2
              rw [hreal] at hesc2
              simpa using hesc2
            have hdd := jsRelative_startsWith_dotdot_of_not_contained hpre
            simp [hstat, hreal, hdd]
    · simp [appFetchGetLegacy, hext]

/-- Filesystem for the C1 witness: `/etc/passwd.json` and
`/etc/passwd.gcode` exist outside the scratch root `/tmp`, nothing else
resolves. -/
def fsW1 : FS :=
  { statF := fun p =>
      if p = "/etc/passwd.json" then some true
      else if p = "/etc/passwd.gcode" then some true
      else none,
    realpathF := fun p =>
      if p = "/tmp" then some "/tmp"
      else if p = "/etc/passwd.json" then some "/etc/passwd.json"
      else if p = "/etc/passwd.gcode" then some "/etc/passwd.gcode"
      else none,
    readF := fun _ => "ROOT-ONLY-CONTENT" }

/-- Witness for `escape_yields_non200`: the concrete traversal inputs
`id = "../../etc/passwd"` and `path = "../../etc/passwd.gcode"` against
`fsW1`, where the candidate canonicalizes to a path outside `/tmp`. -/
theorem escape_yields_non200_witness :
    ((appFetchGet fsW1 "/tmp" (some "../../etc/passwd")).1.status ≠ 200 ∧
      (appFetchGet fsW1 "/tmp" (some "../../etc/passwd")).2 = []) ∧
    ((appFetchGetLegacy fsW1 "/tmp" (some "../../etc/passwd.gcode")).1.status ≠ 200 ∧
      (appFetchGetLegacy fsW1 "/tmp" (some "../../etc/passwd.gcode")).2 = []) :=
  escape_yields_non200 fsW1 "/tmp" "/tmp" "../../etc/passwd" "../../etc/passwd.gcode"
    rfl (by decide) (by decide)

/-- Filesystem for the C2 evaluation: job `u1` has its metadata side-car
at `/tmp/u1.json` and its G-code artifact at `/tmp/job-1.gcode`, with
distinct contents. -/
def fsJob : FS :=
  { statF := fun p =>
      if p = "/tmp/u1.json" then some true
      else if p = "/tmp/job-1.gcode" then some true
      else none,
    realpathF := fun p =>
      if p = "/tmp" then some "/tmp"
      else if p = "/tmp/u1.json" then some "/tmp/u1.json"
      else if p = "/tmp/job-1.gcode" then some "/tmp/job-1.gcode"
      else none,
    readF := fun p =>
      if p = "/tmp/u1.json" then "metadata-record-for-u1"
      else if p = "/tmp/job-1.gcode" then "G1 X0 Y0"
      else "" }

/-- C2 (code bug): evaluating the retrieval handler at a valid job id
shows it reads and returns the metadata side-car `/tmp/u1.json`, not the
job's G-code artifact `/tmp/job-1.gcode` — the source's own comment on
this branch says "Handle get gcode", and the spec's retrieval contract
promises the raw artifact bytes, but the code builds its path as
`join(tmpdir(), id + ".json")`, so the body is the metadata record and
the artifact itself is unreachable. -/
theorem serves_meta_not_gcode :
    appFetchGet fsJob "/tmp" (some "u1") =
      (⟨200, .text "metadata-record-for-u1"⟩, ["/tmp/u1.json"]) ∧
    fsJob.readF "/tmp/job-1.gcode" = "G1 X0 Y0" ∧
    ("metadata-record-for-u1" : String) ≠ "G1 X0 Y0" := by
  refine ⟨by decide, rfl, by decide⟩

/-- Filesystem for the C7 theorems: `/etc/secret.gcode` exists outside
the scratch root `/tmp`; nothing exists inside it. -/
def fs7 : FS :=
  { statF := fun p => if p = "/etc/secret.gcode" then some true else none,
    realpathF := fun p =>
      if p = "/tmp" then some "/tmp"
      else if p = "/etc/secret.gcode" then some "/etc/secret.gcode"
      else none,
    readF := fun _ => "SECRET-GCODE" }

/-- C7 counterexample: the legacy retrieval handler (part_000 lines
259-283) produces three cause-specific rejections — 403 "forbidden path"
for a traversal attempt, 404 "not found" for a missing file, 400
"invalid extension" for a wrong extension — refuting the claim that every
failing retrieval collapses to one uniform not-found response. -/
theorem legacy_reader_distinguishes :
    (appFetchGetLegacy fs7 "/tmp" (some "../../etc/secret.gcode")).1 =
      ⟨403, .text "forbidden path"⟩ ∧
    (appFetchGetLegacy fs7 "/tmp" (some "missing.gcode")).1 =
      ⟨404, .text "not found"⟩ ∧
    (appFetchGetLegacy fs7 "/tmp" (some "x.txt")).1 =
      ⟨400, .text "invalid extension"⟩ ∧
    (403 : Nat) ≠ 404 := by
  refine ⟨by decide, by decide, by decide, by decide⟩

/-- C7 as amended: in the current id-based retrieval handler, once an id
is supplied and the temp root canonicalizes, every failing request —
missing file, non-regular file, failed canonicalization, or containment
violation — yields the same uniform 404 "not found" response; only the
legacy path-based variant distinguishes rejection causes. -/
theorem reader_uniform_notfound (fs : FS) (tmpDir uploadId baseTmp : String)
    (hroot : fs.realpathF tmpDir = some baseTmp) :
    (appFetchGet fs tmpDir (some uploadId)).1.status = 200 ∨
    (appFetchGet fs tmpDir (some uploadId)).1 = ⟨404, .text "not found"⟩ := by
  have habs : jsIsAbsolute (uploadMetaPathOf tmpDir uploadId) = true :=
    jsIsAbsolute_normalizeAbs _
  simp only [appFetchGet, hroot, habs, if_true]
  cases hstat : fs.statF (uploadMetaPathOf tmpDir uploadId) with
  | none => simp [hstat]
  | some isf =>
    cases isf with
    | false => simp [hstat]
    | true =>
      cases hreal : fs.realpathF (uploadMetaPathOf tmpDir uploadId) with
      | none => simp [hstat, hreal]
      | some real =>
        by_cases hc : (jsStartsWith (jsRelative baseTmp real) ".." ||
            jsIsAbsolute (jsRelative baseTmp real)) = true
        · simp [hstat, hreal, hc]
        · simp [hstat, hreal, hc]

/-- Witness for `reader_uniform_notfound` at a concrete filesystem and
id whose temp root canonicalizes to itself. -/
theorem reader_uniform_notfound_witness :
    (appFetchGet fs7 "/tmp" (some "u9")).1.status = 200 ∨
    (appFetchGet fs7 "/tmp" (some "u9")).1 = ⟨404, .text "not found"⟩ :=
  reader_uniform_notfound fs7 "/tmp" "u9" "/tmp" rfl

/-- C6 counterexample: for the stub engine exiting 1 with stderr "boom",
the failure's diagnostic text is "PrusaSlicer failed (code 1): boom" —
it carries the stderr verbatim but does not *equal* "boom". -/
theorem slice_diag_not_boom :
    sliceWithPrusaSlicer ⟨1, "boom", ""⟩ =
      .error "PrusaSlicer failed (code 1): boom" ∧
    ("PrusaSlicer failed (code 1): boom" : String) ≠ "boom" := by
  refine ⟨rfl, by decide⟩

/-- C6 as amended: the adapter maps exit code zero to success carrying
the captured stdout, and any non-zero exit code to a failure whose
diagnostic text is the fixed prefix "PrusaSlicer failed (code N): "
followed by the captured stderr verbatim — the stderr is a verbatim
suffix of the diagnostic, not its entirety. -/
theorem slice_outcome_mapping (r : SpawnResult) :
    (r.code = 0 → sliceWithPrusaSlicer r = .ok r.stdout) ∧
    (r.code ≠ 0 →
      sliceWithPrusaSlicer r =
        .error ("PrusaSlicer failed (code " ++ toString r.code ++ "): " ++ r.stderr) ∧
      r.stderr.data <:+
        ("PrusaSlicer failed (code " ++ toString r.code ++ "): " ++ r.stderr).data) := by
  constructor
  · intro h
    simp [sliceWithPrusaSlicer, h]
  · intro h
    refine ⟨by simp [sliceWithPrusaSlicer, h], ?_⟩
    rw [String.data_append]
    exact List.suffix_append _ _

/-- Witness for `slice_outcome_mapping`: the stub engine exiting 1 with
stderr "boom". -/
theorem slice_outcome_mapping_witness :
    sliceWithPrusaSlicer ⟨1, "boom", ""⟩ =
      .error ("PrusaSlicer failed (code " ++ toString (1 : Int) ++ "): " ++ "boom") :=
  ((slice_outcome_mapping ⟨1, "boom", ""⟩).2 (by decide)).1

/-- C4: the estimate is the stated linear function of the toolpath
summary.  For a summary carrying `totalFilament = f` and `layerCnt = c`:
price `= basePrice + pricePerFilamentUnit * f` and time
`= baseTime + timePerLayer * c`; for a null summary both are exactly 0
(present, not absent); at `f = 100, c = 50` the price is exactly 2 and
the time exactly 3/2. -/
theorem estimate_linear (a : ModelAnalysis) (f c : ℚ)
    (hf : a.totalFilament = some f) (hc : a.layerCnt = some c) :
    finalPrice (some (quickAnalysisOf a)) = BASE_PRICE + f * PRICE_PER_FILAMENT_UNIT ∧
    (getPriceAndTimeEstimate (some a)).timeEstimate = BASE_TIME + c * TIME_PER_LAYER ∧
    (getPriceAndTimeEstimate none).priceEstimate.value = 0 ∧
    (getPriceAndTimeEstimate none).timeEstimate = 0 ∧
    (f = 100 → (getPriceAndTimeEstimate (some a)).priceEstimate.value = 2) ∧
    (c = 50 → (getPriceAndTimeEstimate (some a)).timeEstimate = 3 / 2) := by
  refine ⟨?_, ?_, ?_, ?_, ?_, ?_⟩
  · simp [finalPrice, quickAnalysisOf, hf]
  · simp [getPriceAndTimeEstimate, finalTime, quickAnalysisOf, hc]
  · simp [getPriceAndTimeEstimate, finalPrice, prettyCurrencyObject, currencyOf, jsRound]
    norm_num
  · simp [getPriceAndTimeEstimate, finalTime]
  · intro hf100
    subst hf100
    simp [getPriceAndTimeEstimate, finalPrice, quickAnalysisOf, hf,
      prettyCurrencyObject, currencyOf, jsRound, BASE_PRICE, PRICE_PER_FILAMENT_UNIT]
    norm_num
  · intro hc50
    subst hc50
    simp [getPriceAndTimeEstimate, finalTime, quickAnalysisOf, hc,
      BASE_TIME, TIME_PER_LAYER]
    norm_num

/-- Concrete analysis for the C4 witness: filament length 100, layer
count 50. -/
def aW4 : ModelAnalysis :=
  { max := none, min := none, modelSize := none, totalFilament := some 100,
    filamentByExtruder := none, printTime := none, layerHeight := none,
    layerCnt := some 50 }

/-- Witness for `estimate_linear`: at filament length 100 and layer count
50 the returned price value is exactly 2 and the time exactly 3/2. -/
theorem estimate_linear_witness :
    (getPriceAndTimeEstimate (some aW4)).priceEstimate.value = 2 ∧
    (getPriceAndTimeEstimate (some aW4)).timeEstimate = 3 / 2 :=
  ⟨(estimate_linear aW4 100 50 rfl rfl).2.2.2.2.1 rfl,
   (estimate_linear aW4 100 50 rfl rfl).2.2.2.2.2 rfl⟩

/-- Effects for the C5 counterexample: slicing succeeds, but the
estimation read throws (toolpath file missing). -/
def effEstFail : SliceEffects :=
  { writeInput := .ok true, inputExists := true, slice := .ok "",
    estimate := .error "ENOENT: no such file or directory",
    writeMeta := .ok true, inputExistsAfterMeta := true }

/-- C5 counterexample: a job whose slicing succeeded but whose estimation
pass threw yields a 500 server-error response — the estimation failure
escalates to a request-level error instead of the request still
succeeding with a null summary and zero estimate. -/
theorem estimate_throw_gives_500 :
    (appFetchSlice effEstFail "/tmp" "multipart/form-data"
      (some ⟨"part.stl", 10⟩) "job-1" "u1").1 =
      ⟨500, .text "error getting price estimate: ENOENT: no such file or directory"⟩ ∧
    (500 : Nat) ≠ 200 := by
  refine ⟨by decide, by decide⟩

/-- C5 as amended: after a successful slice, an estimation call that
*throws* (toolpath file missing or unreadable) escalates to a 500
"error getting price estimate" response; only a readable toolpath whose
parse yields a null analysis degrades to a zero estimate (price value 0,
time 0) with the request still succeeding. -/
theorem estimate_failure_behavior (eff : SliceEffects) (tmpDir ct : String)
    (file : UploadFile) (base uploadId : String)
    (hct : jsStartsWith ct "multipart/form-data" = true)
    (hsize : ¬ file.size > SIZE_LIMIT)
    (hext : ALLOWED_EXT.contains
      (extOf (if file.name = "" then "model" else file.name)) = true)
    (hw : eff.writeInput = .ok true) (hex : eff.inputExists = true)
    (hs : ∃ out, eff.slice = .ok out) :
    (∀ msg, eff.estimate = .error msg →
      (appFetchSlice eff tmpDir ct (some file) base uploadId).1 =
        ⟨500, .text ("error getting price estimate: " ++ msg)⟩) ∧
    (eff.estimate = .ok none → eff.writeMeta = .ok true →
      eff.inputExistsAfterMeta = true →
      (appFetchSlice eff tmpDir ct (some file) base uploadId).1 =
        ⟨200, .json uploadId none
          (some { intValue := 0, value := 0, currency := "EUR" }) (some 0)⟩) := by
  obtain ⟨out, hs⟩ := hs
  have hmem : extOf (if file.name = "" then "model" else file.name) ∈ ALLOWED_EXT := by
    simpa using hext
  have hzero : getPriceAndTimeEstimate none =
      { priceEstimate := { intValue := 0, value := 0, currency := "EUR" },
        timeEstimate := 0, quickAnalysis := none } := by
    have h0 : jsRound 0 = 0 := by
      simp [jsRound]
      norm_num
    simp [getPriceAndTimeEstimate, finalPrice, finalTime, prettyCurrencyObject,
      currencyOf, h0]
  constructor
  · intro msg hm
    simp [appFetchSlice, hct, hsize, hmem, hw, hex, hs, hm]
  · intro hest hwm hex2
    simp [appFetchSlice, hct, hsize, hmem, hw, hex, hs, hest, hwm, hex2, hzero]

/-- Effects for the C5 witness: slicing succeeds and the toolpath reads
back but parses to a null analysis. -/
def effEstNull : SliceEffects :=
  { writeInput := .ok true, inputExists := true, slice := .ok "engine-stdout",
    estimate := .ok none, writeMeta := .ok true, inputExistsAfterMeta := true }

/-- Witness for `estimate_failure_behavior`: the null-analysis case at a
concrete upload, yielding the 200 response with a zero estimate. -/
theorem estimate_failure_behavior_witness :
    (appFetchSlice effEstNull "/tmp" "multipart/form-data"
      (some ⟨"part.stl", 10⟩) "job-1" "u1").1 =
      ⟨200, .json "u1" none
        (some { intValue := 0, value := 0, currency := "EUR" }) (some 0)⟩ :=
  (estimate_failure_behavior effEstNull "/tmp" "multipart/form-data"
    ⟨"part.stl", 10⟩ "job-1" "u1" (by decide) (by decide) (by decide)
    rfl rfl ⟨"engine-stdout", rfl⟩).2 rfl rfl rfl

/-- C8: every upload whose byte size exceeds the 100 MiB maximum is
rejected with the size-specific response (413 "request too big"), which
is distinct from any extension rejection, and the effect trace is empty —
no file is created at `inPath`, no subprocess is spawned, nothing is
read, before validation passes. -/
theorem oversize_rejected_no_effects (eff : SliceEffects) (tmpDir ct : String)
    (file : UploadFile) (base uploadId : String)
    (hct : jsStartsWith ct "multipart/form-data" = true)
    (hsize : file.size > SIZE_LIMIT) :
    appFetchSlice eff tmpDir ct (some file) base uploadId =
      (⟨413, .text "request too big"⟩, []) ∧
    ∀ e : String, Body.text "request too big" ≠ Body.text ("unsupported extension: " ++ e) := by
  constructor
  · simp [appFetchSlice, hct, hsize]
  · intro e he
    injection he with he
    have hdata : ("request too big" : String).data =
        ("unsupported extension: " : String).data ++ e.data := by
      rw [he, String.data_append]
    have hlen := congrArg List.length hdata
    have h15 : ("request too big" : String).data.length = 15 := rfl
    have h23 : ("unsupported extension: " : String).data.length = 23 := rfl
    rw [List.length_append, h15, h23] at hlen
    omega

/-- Effects for the C8 witness (never reached: the request is rejected
before any effect runs). -/
def eff8 : SliceEffects :=
  { writeInput := .error "unreached", inputExists := false,
    slice := .error "unreached", estimate := .error "unreached",
    writeMeta := .error "unreached", inputExistsAfterMeta := false }

/-- Witness for `oversize_rejected_no_effects`: a 100 MiB + 1 byte upload
is rejected with 413 and an empty effect trace. -/
theorem oversize_rejected_no_effects_witness :
    appFetchSlice eff8 "/tmp" "multipart/form-data"
      (some ⟨"big.stl", 104857601⟩) "job-1" "u1" =
      (⟨413, .text "request too big"⟩, []) :=
  (oversize_rejected_no_effects eff8 "/tmp" "multipart/form-data"
    ⟨"big.stl", 104857601⟩ "job-1" "u1" (by decide) (by decide)).1

/-- C10: the size-limit check runs before the extension check — an upload
that both exceeds 100 MiB and has a non-allow-listed extension gets the
413 "request too big" rejection, never the 400 extension rejection. -/
theorem size_check_before_ext_check (eff : SliceEffects) (tmpDir ct : String)
    (file : UploadFile) (base uploadId : String)
    (hct : jsStartsWith ct "multipart/form-data" = true)
    (hsize : file.size > SIZE_LIMIT)
    (hext : ALLOWED_EXT.contains
      (extOf (if file.name = "" then "model" else file.name)) = false) :
    (appFetchSlice eff tmpDir ct (some file) base uploadId).1 =
      ⟨413, .text "request too big"⟩ ∧
    (appFetchSlice eff tmpDir ct (some file) base uploadId).1.status ≠ 400 := by
  have h : appFetchSlice eff tmpDir ct (some file) base uploadId =
      (⟨413, .text "request too big"⟩, []) := by
    simp [appFetchSlice, hct, hsize]
  rw [h]
  exact ⟨rfl, by decide⟩

/-- Effects for the C10 witness (never reached). -/
def eff10 : SliceEffects :=
  { writeInput := .error "unreached", inputExists := false,
    slice := .error "unreached", estimate := .error "unreached",
    writeMeta := .error "unreached", inputExistsAfterMeta := false }

/-- Witness for `size_check_before_ext_check`: an oversize upload with
the non-allow-listed extension ".exe" receives 413, not 400. -/
theorem size_check_before_ext_check_witness :
    (appFetchSlice eff10 "/tmp" "multipart/form-data"
      (some ⟨"big.exe", 104857601⟩) "job-1" "u1").1 =
      ⟨413, .text "request too big"⟩ :=
  (size_check_before_ext_check eff10 "/tmp" "multipart/form-data"
    ⟨"big.exe", 104857601⟩ "job-1" "u1" (by decide) (by decide) (by decide)).1

/-- Number of metadata-record writes (writes to path `p`) in an effect
trace. -/
def metaWrites (tr : List Effect) (p : String) : Nat :=
  tr.count (.write p)

/-- Effects for the C9 counterexample: the input write succeeds and the
slicing subprocess fails. -/
def effSliceFail : SliceEffects :=
  { writeInput := .ok true, inputExists := true,
    slice := .error "PrusaSlicer failed (code 1): boom",
    estimate := .error "unreached", writeMeta := .error "unreached",
    inputExistsAfterMeta := false }

/-- C9 counterexample: a job whose slicing fails persists zero metadata
records, not one — the metadata write lives on the success path only and
the request errors with 500, so "a job whose slicing fails still produces
exactly one persisted record" is false. -/
theorem slice_failure_writes_no_record :
    metaWrites (appFetchSlice effSliceFail "/tmp" "multipart/form-data"
      (some ⟨"part.stl", 10⟩) "job-1" "u1").2 (uploadMetaPathOf "/tmp" "u1") = 0 ∧
    (appFetchSlice effSliceFail "/tmp" "multipart/form-data"
      (some ⟨"part.stl", 10⟩) "job-1" "u1").1.status = 500 ∧
    (0 : Nat) ≠ 1 := by
  refine ⟨by decide, by decide, by decide⟩

/-- C9 as amended: within one submission the metadata record is written
at most once, and only on the fully successful path — exactly once when
the request returns 200, and never when slicing fails (such a job
persists no record at all).  It is never updated after being written. -/
theorem meta_written_at_most_once (eff : SliceEffects) (tmpDir ct : String)
    (file : UploadFile) (base uploadId : String)
    (hne : jsJoinAbs tmpDir (base ++ extOf (if file.name = "" then "model" else file.name)) ≠
      uploadMetaPathOf tmpDir uploadId) :
    metaWrites (appFetchSlice eff tmpDir ct (some file) base uploadId).2
      (uploadMetaPathOf tmpDir uploadId) ≤ 1 ∧
    ((appFetchSlice eff tmpDir ct (some file) base uploadId).1.status = 200 →
      metaWrites (appFetchSlice eff tmpDir ct (some file) base uploadId).2
        (uploadMetaPathOf tmpDir uploadId) = 1) ∧
    (∀ msg, eff.slice = .error msg →
      metaWrites (appFetchSlice eff tmpDir ct (some file) base uploadId).2
        (uploadMetaPathOf tmpDir uploadId) = 0) := by
  by_cases hct : jsStartsWith ct "multipart/form-data" = true
  · by_cases hsize : file.size > SIZE_LIMIT
    · simp [appFetchSlice, hct, hsize, metaWrites]
    · by_cases hmem : extOf (if file.name = "" then "model" else file.name) ∈ ALLOWED_EXT
      · cases hw : eff.writeInput with
        | error msg =>
          simp [appFetchSlice, hct, hsize, hmem, hw, metaWrites, List.count_cons, hne]
        | ok ok =>
          cases ok with
          | false =>
            simp [appFetchSlice, hct, hsize, hmem, hw, metaWrites, List.count_cons, hne]
          | true =>
            cases hex : eff.inputExists with
            | false =>
              simp [appFetchSlice, hct, hsize, hmem, hw, hex, metaWrites,
                List.count_cons, hne]
            | true =>
              cases hs : eff.slice with
              | error msg =>
                simp [appFetchSlice, hct, hsize, hmem, hw, hex, hs, metaWrites,
                  List.count_cons, hne]
              | ok out =>
                cases hest : eff.estimate with
                | error msg =>
                  simp [appFetchSlice, hct, hsize, hmem, hw, hex, hs, hest,
                    metaWrites, List.count_cons, hne]
                | ok analysis =>
                  cases hwm : eff.writeMeta with
                  | error msg =>
                    simp [appFetchSlice, hct, hsize, hmem, hw, hex, hs, hest, hwm,
                      metaWrites, List.count_cons, hne]
                  | ok ok2 =>
                    cases ok2 with
                    | false =>
                      simp [appFetchSlice, hct, hsize, hmem, hw, hex, hs, hest, hwm,
                        metaWrites, List.count_cons, hne]
                    | true =>
                      cases hex2 : eff.inputExistsAfterMeta with
                      | false =>
                        simp [appFetchSlice, hct, hsize, hmem, hw, hex, hs, hest,
                          hwm, hex2, metaWrites, List.count_cons, hne]
                      | true =>
                        simp [appFetchSlice, hct, hsize, hmem, hw, hex, hs, hest,
                          hwm, hex2, metaWrites, List.count_cons, hne]
      · simp [appFetchSlice, hct, hsize, hmem, metaWrites]
  · simp [appFetchSlice, hct, metaWrites]

/-- Effects for the C9 witness: every step succeeds. -/
def eff9 : SliceEffects :=
  { writeInput := .ok true, inputExists := true, slice := .ok "engine-stdout",
    estimate := .ok none, writeMeta := .ok true, inputExistsAfterMeta := true }

/-- Witness for `meta_written_at_most_once`: at a concrete fully
successful submission whose input path differs from its metadata path. -/
theorem meta_written_at_most_once_witness :
    metaWrites (appFetchSlice eff9 "/tmp" "multipart/form-data"
      (some ⟨"part.stl", 10⟩) "job-1" "u1").2 (uploadMetaPathOf "/tmp" "u1") ≤ 1 :=
  (meta_written_at_most_once eff9 "/tmp" "multipart/form-data"
    ⟨"part.stl", 10⟩ "job-1" "u1" (by decide)).1
